import Mathlib

/-! Shallow embedding of the ETF data-collection core of the repository:
    the collectors (ETFShareCollector, ETFBasicCollector), the session scope
    of Database.get_session, the retry wrapper of TushareClient, and the
    share-size branch of the main entry point. -/

/-- Calendar date, as held by a Python datetime value or a DB Date column. -/
structure Date where
  year : Nat
  month : Nat
  day : Nat
deriving DecidableEq

/-- Gregorian leap-year rule used by the Python datetime module. -/
def isLeapYear (y : Nat) : Bool :=
  (y % 4 == 0 && y % 100 != 0) || (y % 400 == 0)

/-- Days in a month of the Gregorian calendar. -/
def daysInMonth (y m : Nat) : Nat :=
  if m = 2 then (if isLeapYear y then 29 else 28)
  else if m = 4 ∨ m = 6 ∨ m = 9 ∨ m = 11 then 30
  else 31

/-- The triple (year, month, day) is a real calendar date; datetime.strptime
    with format YYYYMMDD accepts exactly these. -/
def Date.valid (d : Date) : Prop :=
  1 ≤ d.month ∧ d.month ≤ 12 ∧ 1 ≤ d.day ∧ d.day ≤ daysInMonth d.year d.month

instance (d : Date) : Decidable d.valid := by
  unfold Date.valid; exact inferInstance

/-- strftime with format YYYYMMDD: the 8-digit wire form of a date. -/
def Date.toWire (d : Date) : Nat :=
  d.year * 10000 + d.month * 100 + d.day

/-- Digit split of an 8-digit wire date back into (year, month, day). -/
def Date.ofWire (w : Nat) : Date :=
  ⟨w / 10000, w / 100 % 100, w % 100⟩

/-- timedelta(days=1) applied to a valid date: the next calendar day. -/
def Date.next (d : Date) : Date :=
  if d.day < daysInMonth d.year d.month then ⟨d.year, d.month, d.day + 1⟩
  else if d.month < 12 then ⟨d.year, d.month + 1, 1⟩
  else ⟨d.year + 1, 1, 1⟩

/-- pandas to_datetime of one wire value with format YYYYMMDD: some date
    when it parses, none when it is unparseable (for example month 13). -/
def parseWireDate (w : Nat) : Option Date :=
  let d := Date.ofWire w
  if d.valid then some d else none

/-- pandas to_datetime with format YYYYMMDD in coerce error mode
    (etf_basic_collector.py line 29): an unparseable or missing value
    becomes null (NaT, turned into None at line 32) instead of raising. -/
def coerceDate (w : Option Nat) : Option Date :=
  w.bind parseWireDate

/-- One stored row of the etf_share_size table (models.py, ETFShareSize)
    restricted to the columns the collector writes: the surrogate id and the
    created_at audit column are excluded from valid_columns.  Share sizes
    are carried, never computed on, so the Float column is modelled by Rat. -/
structure ShareRow where
  ts_code : String
  trade_date : Date
  fund_share : Rat
deriving DecidableEq

/-- One raw row fetched by TushareClient.get_etf_share_size, after the
    valid-columns filter: ts_code, trade_date in 8-digit wire form,
    fund_share. -/
structure RawShareRow where
  ts_code : String
  trade_date : Nat
  fund_share : Rat
deriving DecidableEq

/-- One raw fund-reference row fetched by TushareClient.get_etf_basic, after
    the valid-columns filter (models.py ETFBasic without created_at and
    updated_at); date columns still in wire form, none when absent. -/
structure ETFBasicRaw where
  ts_code : String
  name : String
  management : String
  custodian : String
  fund_type : String
  found_date : Option Nat
  due_date : Option Nat
  list_date : Option Nat
  issue_date : Option Nat
  delist_date : Option Nat
  issue_amount : Rat
  market : String
deriving DecidableEq

/-- One stored row of the etf_basic table (models.py, ETFBasic) restricted
    to the columns the collector writes. -/
structure ETFBasicRow where
  ts_code : String
  name : String
  management : String
  custodian : String
  fund_type : String
  found_date : Option Date
  due_date : Option Date
  list_date : Option Date
  issue_date : Option Date
  delist_date : Option Date
  issue_amount : Rat
  market : String
deriving DecidableEq

/-- Date normalization of one reference row (etf_basic_collector.py lines
    26-32): each of the five date columns goes through to_datetime in coerce
    mode; all other columns pass through unchanged. -/
def normalizeBasic (r : ETFBasicRaw) : ETFBasicRow :=
  ⟨r.ts_code, r.name, r.management, r.custodian, r.fund_type,
   coerceDate r.found_date, coerceDate r.due_date, coerceDate r.list_date,
   coerceDate r.issue_date, coerceDate r.delist_date, r.issue_amount, r.market⟩

/-- State of one SQLAlchemy session: the committed store it was opened on
    (base), its working view holding pending changes, and whether it is
    still open. -/
structure PySession (σ : Type) where
  base : σ
  working : σ
  isOpen : Bool

def PySession.openSession (s : σ) : PySession σ :=
  ⟨s, s, true⟩

/-- session.commit: publish the pending changes as the committed store. -/
def PySession.commit (s : PySession σ) : PySession σ :=
  ⟨s.working, s.working, s.isOpen⟩

/-- session.rollback: discard the pending changes. -/
def PySession.rollback (s : PySession σ) : PySession σ :=
  ⟨s.base, s.base, s.isOpen⟩

/-- session.close: release the session resource. -/
def PySession.close (s : PySession σ) : PySession σ :=
  ⟨s.base, s.working, false⟩

/-- Observable outcome of one Database.get_session scope: the durable store
    after the scope, the exception re-raised out of it (none on normal
    return), and whether the session ended closed. -/
structure SessionOutcome (ε σ : Type) where
  store : σ
  raised : Option ε
  sessionClosed : Bool

/-- database.py, Database.get_session (lines 122-134): open a session, run
    the unit of work on it, commit on normal return; on any exception roll
    back, log and re-raise; always close the session in the finally block.
    A unit of work is a function from the session view to an Except carrying
    either the new view or the exception it raised. -/
def Database.get_session (uow : σ → Except ε σ) (store : σ) : SessionOutcome ε σ :=
  let s := PySession.openSession store
  match uow s.working with
  | Except.ok w =>
      let s2 := PySession.close (PySession.commit ⟨s.base, w, s.isOpen⟩)
      ⟨s2.base, none, !s2.isOpen⟩
  | Except.error e =>
      let s2 := PySession.close (PySession.rollback s)
      ⟨s2.base, some e, !s2.isOpen⟩

/-- Does the table already hold a row with key (ts_code, trade_date)?  This
    is the membership test of the unique composite index
    idx_ts_code_trade_date of models.py (lines 33-35). -/
def hasKey (st : List ShareRow) (c : String) (d : Date) : Bool :=
  st.any fun x => decide (x.ts_code = c) && decide (x.trade_date = d)

/-- Flush, at commit time, of one batch of session.merge(ETFShareSize(...))
    calls (etf_share_collector.py lines 63-68).  The merged instances carry
    no value for the primary key id, because id is excluded from
    valid_columns; SQLAlchemy merge resolves identity by primary key, finds
    none, and emits a plain INSERT for every record.  The unique index
    idx_ts_code_trade_date rejects an INSERT whose (ts_code, trade_date)
    already exists, raising IntegrityError and failing the transaction. -/
def applyBatch (store : List ShareRow) : List ShareRow → Except String (List ShareRow)
  | [] => Except.ok store
  | r :: rest =>
      if hasKey store r.ts_code r.trade_date then Except.error "IntegrityError: UNIQUE"
      else applyBatch (store ++ [r]) rest

/-- Uniqueness invariant of the composite index: no two rows share the pair
    (ts_code, trade_date). -/
def keysNodup (st : List ShareRow) : Prop :=
  List.Pairwise (fun a b => ¬(a.ts_code = b.ts_code ∧ a.trade_date = b.trade_date)) st

/-- pandas to_datetime over the trade_date column with format YYYYMMDD in
    the default raise error mode (etf_share_collector.py line 55): one
    unparseable entry fails the conversion of the whole column. -/
def convertTradeDates : List RawShareRow → Except String (List ShareRow)
  | [] => Except.ok []
  | r :: rest =>
      match parseWireDate r.trade_date with
      | none => Except.error "time data does not match format"
      | some d =>
          match convertTradeDates rest with
          | Except.error m => Except.error m
          | Except.ok rows => Except.ok (⟨r.ts_code, d, r.fund_share⟩ :: rows)

/-- Body of the per-fund loop (etf_share_collector.py lines 43-75, repeated
    at lines 106-135): fetch the series of this fund between startW and
    endW, skip when the frame is empty, convert trade dates, write the batch
    in one session scope; on any exception inside the body (failed fetch,
    unparseable date, failed write) log and continue with the store
    unchanged. -/
def processFund (fetch : String → Nat → Nat → Except String (List RawShareRow))
    (startW endW : Nat) (store : List ShareRow) (ts_code : String) : List ShareRow :=
  match fetch ts_code startW endW with
  | Except.error _ => store
  | Except.ok raws =>
      if raws.isEmpty then store
      else
        match convertTradeDates raws with
        | Except.error _ => store
        | Except.ok rows => (Database.get_session (fun st => applyBatch st rows) store).store

/-- Running maximum over the trade_date column (func.max).  On valid dates
    the wire order coincides with chronological order, which is the order of
    the SQL Date type. -/
def maxDateAux (m : Date) : List ShareRow → Date
  | [] => m
  | r :: rs => maxDateAux (if m.toWire ≤ r.trade_date.toWire then r.trade_date else m) rs

/-- etf_share_collector.py lines 13-19: the maximum trade date stored in the
    table, formatted with strftime YYYYMMDD; None when the table is empty. -/
def ETFShareCollector.get_latest_date : List ShareRow → Option Nat
  | [] => none
  | r :: rs => some ((maxDateAux r.trade_date rs).toWire)

/-- etf_share_collector.py lines 27-81: full collection.  The fund list read
    by get_etf_list from etf_basic, the fetch oracle of the client and the
    current date are inputs.  Call sites omitting start_date get the Python
    default 20200101. -/
def ETFShareCollector.collect_full
    (fetch : String → Nat → Nat → Except String (List RawShareRow))
    (etfs : List String) (startW todayW : Nat) (store : List ShareRow) : List ShareRow :=
  etfs.foldl (processFund fetch startW todayW) store

/-- etf_share_collector.py lines 83-141: incremental collection.  With no
    watermark it falls back to collect_full with the default start date
    20200101; otherwise it parses the watermark with strptime, adds one day
    with timedelta, and runs the same per-fund loop up to today. -/
def ETFShareCollector.collect_incremental
    (fetch : String → Nat → Nat → Except String (List RawShareRow))
    (etfs : List String) (todayW : Nat) (store : List ShareRow) : List ShareRow :=
  match ETFShareCollector.get_latest_date store with
  | none => ETFShareCollector.collect_full fetch etfs 20200101 todayW store
  | some w =>
      etfs.foldl (processFund fetch ((Date.ofWire w).next.toWire) todayW) store

/-- The fetch requests issued by the loop of collect_full: exactly one call
    fetch(c, startW, endW) per fund c, in list order (line 45). -/
def shareRequestsFull (etfs : List String) (startW endW : Nat) :
    List (String × Nat × Nat) :=
  etfs.map fun c => (c, startW, endW)

/-- The fetch requests issued by collect_incremental: the full-collection
    requests from 20200101 when the table is empty, else one request per
    fund from the day after the watermark up to today (lines 96-112). -/
def shareRequestsIncr (store : List ShareRow) (etfs : List String) (todayW : Nat) :
    List (String × Nat × Nat) :=
  match ETFShareCollector.get_latest_date store with
  | none => shareRequestsFull etfs 20200101 todayW
  | some w => shareRequestsFull etfs ((Date.ofWire w).next.toWire) todayW

/-- etf_basic_collector.py lines 13-55: full reference sync.  An empty fetch
    logs a warning and returns leaving the store untouched.  Otherwise the
    date columns are normalized in coerce mode and, in one session scope,
    all existing rows are deleted and the fetched set inserted; a duplicate
    primary key ts_code in the fetched set would fail the flush, roll the
    transaction back and re-raise (line 55). -/
def ETFBasicCollector.collect_full (fetched : List ETFBasicRaw)
    (store : List ETFBasicRow) : Except String (List ETFBasicRow) :=
  if fetched.isEmpty then Except.ok store
  else
    let rows := fetched.map normalizeBasic
    if (rows.map fun r => r.ts_code).Nodup then Except.ok rows
    else Except.error "IntegrityError: duplicate primary key"

/-- The retry decorator of the retry library, as applied in
    tushare_client.py line 24 and line 44: run f; on an exception decrement
    the remaining tries, re-raise the exception when none remain, otherwise
    sleep the current delay, multiply the delay by backoff and loop.  The
    oracle f is indexed by the attempt number; the returned list records the
    sleeps performed, in order. -/
def retryInternal (f : Nat → Except String α) (backoff : Nat) :
    Nat → Nat → Nat → Except String α × List Nat
  | 0, _, _ => (Except.error "no tries", [])
  | t + 1, d, k =>
      match f k with
      | Except.ok a => (Except.ok a, [])
      | Except.error e =>
          if t = 0 then (Except.error e, [])
          else
            let r := retryInternal f backoff t (d * backoff) (k + 1)
            (r.1, d :: r.2)

/-- Entry point of the retry decorator with arguments (tries, delay,
    backoff), starting at attempt 0. -/
def retryCall (tries delay backoff : Nat) (f : Nat → Except String α) :
    Except String α × List Nat :=
  retryInternal f backoff tries delay 0

/-- tushare_client.py lines 24-42: get_etf_basic, decorated with retry
    tries=3 delay=1 backoff=2; the body rate-limits, calls the API, logs and
    re-raises, leaving the Except result unchanged. -/
def TushareClient.get_etf_basic (api : Nat → Except String (List ETFBasicRaw)) :
    Except String (List ETFBasicRaw) × List Nat :=
  retryCall 3 1 2 api

/-- tushare_client.py lines 44-73: get_etf_share_size, decorated with retry
    tries=3 delay=1 backoff=2. -/
def TushareClient.get_etf_share_size (api : Nat → Except String (List RawShareRow)) :
    Except String (List RawShareRow) × List Nat :=
  retryCall 3 1 2 api

/-- Collection mode of the entry point (main.py lines 13-18). -/
inductive Mode where
  | full
  | incremental
deriving DecidableEq

/-- main.py lines 63-70: the share-size branch of the entry point.  In full
    mode collect_full receives the --start-date argument; in incremental
    mode collect_incremental is called without any date argument. -/
def mainShare (mode : Mode) (cliStartDate : Nat)
    (fetch : String → Nat → Nat → Except String (List RawShareRow))
    (etfs : List String) (todayW : Nat) (store : List ShareRow) : List ShareRow :=
  match mode with
  | Mode.full => ETFShareCollector.collect_full fetch etfs cliStartDate todayW store
  | Mode.incremental => ETFShareCollector.collect_incremental fetch etfs todayW store

/-- One run of the share-size job, either full or incremental, with its own
    fetch oracle, fund list and date arguments. -/
inductive SyncOp where
  | full (fetch : String → Nat → Nat → Except String (List RawShareRow))
      (etfs : List String) (startW todayW : Nat)
  | incr (fetch : String → Nat → Nat → Except String (List RawShareRow))
      (etfs : List String) (todayW : Nat)

/-- Execute one share-size sync run against the store. -/
def runOp (store : List ShareRow) : SyncOp → List ShareRow
  | SyncOp.full fetch etfs s t => ETFShareCollector.collect_full fetch etfs s t store
  | SyncOp.incr fetch etfs t => ETFShareCollector.collect_incremental fetch etfs t store

/-- Execute a sequence of share-size sync runs, in order. -/
def runOps (ops : List SyncOp) (store : List ShareRow) : List ShareRow :=
  ops.foldl runOp store

/-- A fund fetch failing for the given fund code whatever the date range —
    the shape of a fetch whose retries are exhausted for that fund. -/
def fetchFailsFor (fetch : String → Nat → Nat → Except String (List RawShareRow))
    (c : String) : Prop :=
  ∀ s e, ∃ m, fetch c s e = Except.error m

/-- Store holding exactly one observation: fund F at 2024-01-05, size 10. -/
def storeC1 : List ShareRow :=
  [⟨"F", ⟨2024, 1, 5⟩, (10 : Rat)⟩]

/-- Oracle re-fetching the already-stored key (F, 20240105) with the fresh
    share size 12. -/
def fetchC1 (c : String) (s e : Nat) : Except String (List RawShareRow) :=
  Except.ok [⟨"F", 20240105, (12 : Rat)⟩]

/-- Oracle whose fund B always fails and whose other funds each yield one
    row at 2024-01-05. -/
def fetchC2 (c : String) (s e : Nat) : Except String (List RawShareRow) :=
  if c = "B" then Except.error "RemoteFetchError"
  else Except.ok [⟨c, 20240105, (1 : Rat)⟩]

/-- Oracle returning, for every fund, a batch holding the same key twice. -/
def fetchC3 (c : String) (s e : Nat) : Except String (List RawShareRow) :=
  Except.ok [⟨"F", 20240105, (1 : Rat)⟩, ⟨"F", 20240105, (2 : Rat)⟩]

/-- The ten stored observations of fund 510300.SH at 2024-01-01..2024-01-10. -/
def rowC4 : ShareRow :=
  ⟨"510300.SH", ⟨2024, 1, 1⟩, (1 : Rat)⟩

/-- The other nine observations behind rowC4. -/
def restC4 : List ShareRow :=
  [⟨"510300.SH", ⟨2024, 1, 2⟩, (1 : Rat)⟩, ⟨"510300.SH", ⟨2024, 1, 3⟩, (1 : Rat)⟩,
   ⟨"510300.SH", ⟨2024, 1, 4⟩, (1 : Rat)⟩, ⟨"510300.SH", ⟨2024, 1, 5⟩, (1 : Rat)⟩,
   ⟨"510300.SH", ⟨2024, 1, 6⟩, (1 : Rat)⟩, ⟨"510300.SH", ⟨2024, 1, 7⟩, (1 : Rat)⟩,
   ⟨"510300.SH", ⟨2024, 1, 8⟩, (1 : Rat)⟩, ⟨"510300.SH", ⟨2024, 1, 9⟩, (1 : Rat)⟩,
   ⟨"510300.SH", ⟨2024, 1, 10⟩, (1 : Rat)⟩]

/-- The full ten-row store of the watermark example. -/
def storeC4 : List ShareRow :=
  rowC4 :: restC4

/-- Oracle finding no new data, for the watermark example. -/
def fetchEmpty (c : String) (s e : Nat) : Except String (List RawShareRow) :=
  Except.ok []

/-- Oracle whose fund F yields a batch whose first row carries the
    unparseable wire date 20241301 (month 13) and whose second row is
    well-formed. -/
def fetchC9 (c : String) (s e : Nat) : Except String (List RawShareRow) :=
  Except.ok [⟨"F", 20241301, (7 : Rat)⟩, ⟨"F", 20240105, (5 : Rat)⟩]

/-- Unit of work succeeding with the store increased by one. -/
def uowOk (s : Nat) : Except Nat Nat :=
  Except.ok (s + 1)

/-- Unit of work raising exception 42. -/
def uowFail (s : Nat) : Except Nat Nat :=
  Except.error 42

/-- API oracle failing on every attempt with a distinct message. -/
def apiFailB (k : Nat) : Except String (List ETFBasicRaw) :=
  if k = 0 then Except.error "timeout-0"
  else if k = 1 then Except.error "timeout-1"
  else Except.error "timeout-2"

/-- Share-size API oracle failing on every attempt. -/
def apiFailS (k : Nat) : Except String (List RawShareRow) :=
  if k = 0 then Except.error "throttle-0"
  else if k = 1 then Except.error "throttle-1"
  else Except.error "throttle-2"

/-- API oracle failing once, then succeeding with an empty frame. -/
def apiFlaky (k : Nat) : Except String (List ETFBasicRaw) :=
  if k = 0 then Except.error "reset-0" else Except.ok []

theorem daysInMonth_le (y m : Nat) : daysInMonth y m ≤ 31 := by
  unfold daysInMonth
  split
  · split <;> omega
  · split <;> omega

theorem ofWire_toWire (d : Date) (hd : d.valid) : Date.ofWire d.toWire = d := by
  obtain ⟨h1, h2, h3, h4⟩ := hd
  have h5 : d.day ≤ 31 := le_trans h4 (daysInMonth_le d.year d.month)
  cases d with
  | mk y m dd =>
    simp only at h2 h5
    simp only [Date.toWire, Date.ofWire, Date.mk.injEq]
    refine ⟨?_, ?_, ?_⟩ <;> omega

theorem maxDateAux_mem (rs : List ShareRow) : ∀ m : Date,
    maxDateAux m rs = m ∨ maxDateAux m rs ∈ rs.map fun x => x.trade_date := by
  induction rs with
  | nil => intro m; left; rfl
  | cons r rs ih =>
    intro m
    simp only [maxDateAux, List.map_cons, List.mem_cons]
    rcases ih (if m.toWire ≤ r.trade_date.toWire then r.trade_date else m) with h | h
    · rw [h]
      split
      · right; left; rfl
      · left; rfl
    · right; right; exact h

theorem maxDateAux_ub (rs : List ShareRow) : ∀ m : Date,
    m.toWire ≤ (maxDateAux m rs).toWire ∧
    ∀ x ∈ rs, x.trade_date.toWire ≤ (maxDateAux m rs).toWire := by
  induction rs with
  | nil => intro m; exact ⟨le_refl _, by simp⟩
  | cons r rs ih =>
    intro m
    simp only [maxDateAux, List.mem_cons]
    obtain ⟨ih1, ih2⟩ := ih (if m.toWire ≤ r.trade_date.toWire then r.trade_date else m)
    constructor
    · refine le_trans ?_ ih1
      split <;> omega
    · intro x hx
      rcases hx with hx | hx
      · subst hx
        refine le_trans ?_ ih1
        split <;> omega
      · exact ih2 x hx

theorem hasKey_false_not_mem {st : List ShareRow} {c : String} {d : Date}
    (h : hasKey st c d = false) : ∀ r ∈ st, ¬(r.ts_code = c ∧ r.trade_date = d) := by
  intro r hr hrc
  have hk : hasKey st c d = true := by
    simp only [hasKey, List.any_eq_true]
    exact ⟨r, hr, by simp [hrc.1, hrc.2]⟩
  rw [hk] at h
  exact Bool.true_eq_false.mp h

theorem get_session_ok {σ ε : Type} (uow : σ → Except ε σ) (store s : σ)
    (h : uow store = Except.ok s) :
    Database.get_session uow store = ⟨s, none, true⟩ := by
  simp [Database.get_session, PySession.openSession, PySession.commit, PySession.close,
    PySession.rollback, h]

theorem get_session_error {σ ε : Type} (uow : σ → Except ε σ) (store : σ) (e : ε)
    (h : uow store = Except.error e) :
    Database.get_session uow store = ⟨store, some e, true⟩ := by
  simp [Database.get_session, PySession.openSession, PySession.commit, PySession.close,
    PySession.rollback, h]

theorem get_session_store_cases {σ ε : Type} (uow : σ → Except ε σ) (store : σ) :
    (Database.get_session uow store).store = store ∨
    uow store = Except.ok (Database.get_session uow store).store := by
  cases h : uow store with
  | ok w => right; rw [get_session_ok uow store w h]
  | error e => left; rw [get_session_error uow store e h]

theorem applyBatch_nodup (rows : List ShareRow) : ∀ store store' : List ShareRow,
    keysNodup store → applyBatch store rows = Except.ok store' → keysNodup store' := by
  induction rows with
  | nil =>
    intro store store' hn happ
    simp only [applyBatch] at happ
    cases happ
    exact hn
  | cons r rest ih =>
    intro store store' hn happ
    simp only [applyBatch] at happ
    cases hk : hasKey store r.ts_code r.trade_date with
    | true => rw [hk] at happ; simp at happ
    | false =>
      rw [hk] at happ
      simp only [Bool.false_eq_true, if_false] at happ
      refine ih (store ++ [r]) store' ?_ happ
      unfold keysNodup at hn ⊢
      rw [List.pairwise_append]
      refine ⟨hn, List.pairwise_singleton _ _, ?_⟩
      intro a ha b hb
      simp only [List.mem_singleton] at hb
      subst hb
      exact hasKey_false_not_mem hk a ha

theorem processFund_nodup (fetch : String → Nat → Nat → Except String (List RawShareRow))
    (s t : Nat) (store : List ShareRow) (c : String) (hn : keysNodup store) :
    keysNodup (processFund fetch s t store c) := by
  unfold processFund
  split
  · exact hn
  · split
    · exact hn
    · split
      · exact hn
      · next rows hc =>
        rcases get_session_store_cases (fun st => applyBatch st rows) store with h | h
        · rw [h]; exact hn
        · exact applyBatch_nodup rows store _ hn h

theorem foldl_processFund_nodup
    (fetch : String → Nat → Nat → Except String (List RawShareRow))
    (s t : Nat) (etfs : List String) : ∀ store : List ShareRow, keysNodup store →
    keysNodup (etfs.foldl (processFund fetch s t) store) := by
  induction etfs with
  | nil => intro store hn; exact hn
  | cons c cs ih =>
    intro store hn
    exact ih _ (processFund_nodup fetch s t store c hn)

theorem collect_full_nodup (fetch : String → Nat → Nat → Except String (List RawShareRow))
    (etfs : List String) (s t : Nat) (store : List ShareRow) (hn : keysNodup store) :
    keysNodup (ETFShareCollector.collect_full fetch etfs s t store) :=
  foldl_processFund_nodup fetch s t etfs store hn

theorem collect_incremental_nodup
    (fetch : String → Nat → Nat → Except String (List RawShareRow))
    (etfs : List String) (t : Nat) (store : List ShareRow) (hn : keysNodup store) :
    keysNodup (ETFShareCollector.collect_incremental fetch etfs t store) := by
  unfold ETFShareCollector.collect_incremental
  cases h : ETFShareCollector.get_latest_date store with
  | none => exact collect_full_nodup fetch etfs 20200101 t store hn
  | some w => exact foldl_processFund_nodup fetch _ t etfs store hn

theorem runOp_nodup (store : List ShareRow) (op : SyncOp) (hn : keysNodup store) :
    keysNodup (runOp store op) := by
  cases op with
  | full fetch etfs s t => exact collect_full_nodup fetch etfs s t store hn
  | incr fetch etfs t => exact collect_incremental_nodup fetch etfs t store hn

theorem runOps_nodup (ops : List SyncOp) : ∀ store : List ShareRow, keysNodup store →
    keysNodup (runOps ops store) := by
  induction ops with
  | nil => intro store hn; exact hn
  | cons op rest ih =>
    intro store hn
    exact ih _ (runOp_nodup store op hn)

theorem processFund_fetch_error
    (fetch : String → Nat → Nat → Except String (List RawShareRow))
    (s t : Nat) (b : String) (hb : fetchFailsFor fetch b) (store : List ShareRow) :
    processFund fetch s t store b = store := by
  obtain ⟨m, hm⟩ := hb s t
  unfold processFund
  rw [hm]

theorem foldl_processFund_skip
    (fetch : String → Nat → Nat → Except String (List RawShareRow))
    (s t : Nat) (b : String) (hb : fetchFailsFor fetch b)
    (xs ys : List String) (store : List ShareRow) :
    (xs ++ b :: ys).foldl (processFund fetch s t) store =
      (xs ++ ys).foldl (processFund fetch s t) store := by
  rw [List.foldl_append, List.foldl_append, List.foldl_cons,
    processFund_fetch_error fetch s t b hb]

theorem convertTradeDates_error_of_mem (r : RawShareRow)
    (hbad : parseWireDate r.trade_date = none) :
    ∀ raws : List RawShareRow, r ∈ raws →
      ∃ m, convertTradeDates raws = Except.error m := by
  intro raws
  induction raws with
  | nil => intro hr; cases hr
  | cons a rest ih =>
    intro hr
    rcases List.mem_cons.mp hr with hr | hr
    · subst hr
      refine ⟨"time data does not match format", ?_⟩
      unfold convertTradeDates
      rw [hbad]
    · cases hp : parseWireDate a.trade_date with
      | none =>
        refine ⟨"time data does not match format", ?_⟩
        unfold convertTradeDates
        rw [hp]
      | some d =>
        obtain ⟨m, hm⟩ := ih hr
        refine ⟨m, ?_⟩
        unfold convertTradeDates
        rw [hp, hm]

theorem processFund_bad_date
    (fetch : String → Nat → Nat → Except String (List RawShareRow))
    (s t : Nat) (store : List ShareRow) (c : String)
    (raws : List RawShareRow) (r : RawShareRow)
    (hf : fetch c s t = Except.ok raws) (hr : r ∈ raws)
    (hbad : parseWireDate r.trade_date = none) :
    processFund fetch s t store c = store := by
  obtain ⟨m, hm⟩ := convertTradeDates_error_of_mem r hbad raws hr
  have hne : raws.isEmpty = false := by
    cases raws with
    | nil => cases hr
    | cons a rest => rfl
  unfold processFund
  rw [hf]
  simp [hne, hm]

theorem retryInternal_succ {α : Type} (f : Nat → Except String α) (b t d k : Nat) :
    retryInternal f b (t + 1) d k =
      match f k with
      | Except.ok a => (Except.ok a, [])
      | Except.error e =>
          if t = 0 then (Except.error e, [])
          else ((retryInternal f b t (d * b) (k + 1)).1,
                d :: (retryInternal f b t (d * b) (k + 1)).2) := rfl

theorem retryCall3 {α : Type} (f : Nat → Except String α) :
    retryCall 3 1 2 f =
      match f 0 with
      | Except.ok a => (Except.ok a, [])
      | Except.error _ =>
        match f 1 with
        | Except.ok a => (Except.ok a, [1])
        | Except.error _ =>
          match f 2 with
          | Except.ok a => (Except.ok a, [1, 2])
          | Except.error e => (Except.error e, [1, 2]) := by
  unfold retryCall
  rw [retryInternal_succ f 2 2 1 0]
  cases h0 : f 0 with
  | ok a => rfl
  | error e0 =>
    simp only [show (2 : Nat) ≠ 0 from by omega, if_neg, reduceIte]
    rw [retryInternal_succ f 2 1 2 1]
    cases h1 : f 1 with
    | ok a => rfl
    | error e1 =>
      simp only [show (1 : Nat) ≠ 0 from by omega, if_neg, reduceIte]
      rw [retryInternal_succ f 2 0 4 2]
      cases h2 : f 2 with
      | ok a => rfl
      | error e2 => rfl

/-- C1: the spec claims that when a re-fetched row arrives for an already
    stored key (fund identifier, trade date), the merge updates the existing
    row in place and never produces a second row with that key.  The code
    does not update in place: session.merge receives an instance whose
    primary key id is unset, so it issues an INSERT; the unique index
    rejects it and the per-fund transaction rolls back.  Evaluated at the
    failing input — store holds (F, 2024-01-05, 10), the re-fetch returns
    (F, 20240105, 12) — the store is unchanged: the old share size 10
    survives, the re-fetched value 12 is never written (though indeed no
    second row appears). -/
theorem C1_no_inplace_update :
    ETFShareCollector.collect_full fetchC1 ["F"] 20240101 20241231 storeC1 = storeC1 ∧
    (⟨"F", ⟨2024, 1, 5⟩, (12 : Rat)⟩ : ShareRow) ∉
      ETFShareCollector.collect_full fetchC1 ["F"] 20240101 20241231 storeC1 := by
  refine ⟨by decide, by decide⟩

/-- C2: partial-failure isolation.  If one fund b of the list fails —
    its fetch always raises, or its per-fund write raises — the collectors
    log, skip exactly that fund and process every other fund as if b were
    absent; the embedded collect_full and collect_incremental are total
    functions, so no exception escapes the per-fund loop.  The first two
    conjuncts state that a batch containing the failing fund b produces the
    same store as the batch without b (rows of all non-failing funds are
    still written); the third states that a fund whose write fails (the
    batch flush raises) is skipped with the store unchanged. -/
theorem C2_partial_failure_isolation
    (fetch : String → Nat → Nat → Except String (List RawShareRow))
    (xs ys : List String) (b : String) (startW todayW : Nat) (store : List ShareRow)
    (hb : fetchFailsFor fetch b)
    (fetch2 : String → Nat → Nat → Except String (List RawShareRow))
    (c : String) (s2 e2 : Nat) (st2 : List ShareRow)
    (raws : List RawShareRow) (rows : List ShareRow) (m : String)
    (hf : fetch2 c s2 e2 = Except.ok raws)
    (hc : convertTradeDates raws = Except.ok rows)
    (hw : applyBatch st2 rows = Except.error m) :
    ETFShareCollector.collect_full fetch (xs ++ b :: ys) startW todayW store =
      ETFShareCollector.collect_full fetch (xs ++ ys) startW todayW store ∧
    ETFShareCollector.collect_incremental fetch (xs ++ b :: ys) todayW store =
      ETFShareCollector.collect_incremental fetch (xs ++ ys) todayW store ∧
    processFund fetch2 s2 e2 st2 c = st2 := by
  refine ⟨foldl_processFund_skip fetch startW todayW b hb xs ys store, ?_, ?_⟩
  · unfold ETFShareCollector.collect_incremental
    cases h : ETFShareCollector.get_latest_date store with
    | none => exact foldl_processFund_skip fetch 20200101 todayW b hb xs ys store
    | some w => exact foldl_processFund_skip fetch _ todayW b hb xs ys store
  · have hraws : raws.isEmpty = false := by
      cases raws with
      | nil =>
        have hrows : rows = [] := by
          simp only [convertTradeDates] at hc
          cases hc
          rfl
        subst hrows
        simp only [applyBatch] at hw
        cases hw
      | cons a rest => rfl
    unfold processFund
    rw [hf]
    simp only [hraws, Bool.false_eq_true, if_false, hc]
    rw [get_session_error _ st2 m hw]

/-- C2 witness: funds A, B, C with fund B always failing — the batch yields
    the same store as running only A and C; and the write of fund F, whose
    flush raises the uniqueness violation, leaves the store unchanged. -/
theorem C2_partial_failure_witness :
    ETFShareCollector.collect_full fetchC2 (["A"] ++ "B" :: ["C"]) 20240101 20241231 [] =
      ETFShareCollector.collect_full fetchC2 (["A"] ++ ["C"]) 20240101 20241231 [] ∧
    ETFShareCollector.collect_incremental fetchC2 (["A"] ++ "B" :: ["C"]) 20241231 [] =
      ETFShareCollector.collect_incremental fetchC2 (["A"] ++ ["C"]) 20241231 [] ∧
    processFund fetchC1 20240101 20241231 storeC1 "F" = storeC1 :=
  C2_partial_failure_isolation fetchC2 ["A"] ["C"] "B" 20240101 20241231 []
    (fun s e => ⟨"RemoteFetchError", rfl⟩)
    fetchC1 "F" 20240101 20241231 storeC1
    [⟨"F", 20240105, (12 : Rat)⟩] [⟨"F", ⟨2024, 1, 5⟩, (12 : Rat)⟩]
    "IntegrityError: UNIQUE" rfl rfl rfl

/-- C3: after any sequence of full and incremental sync runs, the share-size
    store never holds two rows with the same (fund identifier, trade date)
    pair — the uniqueness invariant of the composite index is preserved in
    every reachable state. -/
theorem C3_unique_key_invariant (ops : List SyncOp) (store : List ShareRow)
    (hn : keysNodup store) : keysNodup (runOps ops store) :=
  runOps_nodup ops store hn

/-- C3 witness: starting from the empty store and running a full sync whose
    fetch yields a duplicate-keyed batch followed by an incremental sync,
    the invariant holds. -/
theorem C3_unique_key_witness :
    keysNodup ([] : List ShareRow) ∧
    keysNodup (runOps [SyncOp.full fetchC3 ["F"] 20240101 20241231,
      SyncOp.incr fetchC3 ["F"] 20241231] []) :=
  ⟨List.Pairwise.nil, C3_unique_key_invariant _ _ List.Pairwise.nil⟩

/-- C4: with a non-empty share-size table (all stored dates valid calendar
    dates, as every stored date is), collect_incremental starts every
    per-fund fetch at the maximum stored trade date plus one calendar day
    and ends it at the current date: the running maximum is an upper bound
    of all stored trade dates and is itself stored; the issued requests are
    exactly one request per fund from the day after that maximum up to
    today; and the store update is the per-fund loop run over that range. -/
theorem C4_watermark_next_day
    (r : ShareRow) (rs : List ShareRow)
    (fetch : String → Nat → Nat → Except String (List RawShareRow))
    (etfs : List String) (todayW : Nat)
    (hv : ∀ x ∈ r :: rs, x.trade_date.valid) :
    (∀ x ∈ r :: rs, x.trade_date.toWire ≤ (maxDateAux r.trade_date rs).toWire) ∧
    maxDateAux r.trade_date rs ∈ (r :: rs).map (fun x => x.trade_date) ∧
    shareRequestsIncr (r :: rs) etfs todayW =
      shareRequestsFull etfs ((maxDateAux r.trade_date rs).next.toWire) todayW ∧
    ETFShareCollector.collect_incremental fetch etfs todayW (r :: rs) =
      etfs.foldl (processFund fetch ((maxDateAux r.trade_date rs).next.toWire) todayW)
        (r :: rs) := by
  have hub := maxDateAux_ub rs r.trade_date
  have hmem : maxDateAux r.trade_date rs ∈ (r :: rs).map (fun x => x.trade_date) := by
    rcases maxDateAux_mem rs r.trade_date with h | h
    · simp only [List.map_cons, List.mem_cons]; left; exact h
    · simp only [List.map_cons, List.mem_cons]; right; exact h
  have hvalid : (maxDateAux r.trade_date rs).valid := by
    rcases List.mem_map.mp hmem with ⟨x, hx, hxe⟩
    rw [← hxe]
    exact hv x hx
  have hrt : Date.ofWire (maxDateAux r.trade_date rs).toWire = maxDateAux r.trade_date rs :=
    ofWire_toWire _ hvalid
  refine ⟨?_, hmem, ?_, ?_⟩
  · intro x hx
    rcases List.mem_cons.mp hx with hx | hx
    · rw [hx]; exact hub.1
    · exact hub.2 x hx
  · show shareRequestsFull etfs
        ((Date.ofWire (maxDateAux r.trade_date rs).toWire).next.toWire) todayW =
      shareRequestsFull etfs ((maxDateAux r.trade_date rs).next.toWire) todayW
    rw [hrt]
  · show etfs.foldl
        (processFund fetch ((Date.ofWire (maxDateAux r.trade_date rs).toWire).next.toWire)
          todayW) (r :: rs) =
      etfs.foldl (processFund fetch ((maxDateAux r.trade_date rs).next.toWire) todayW)
        (r :: rs)
    rw [hrt]

/-- C4 witness: with stored trade dates 2024-01-01 through 2024-01-10 the
    incremental sync requests data for each fund from 2024-01-11 (wire form
    20240111) up to today. -/
theorem C4_watermark_witness :
    shareRequestsIncr storeC4 ["510300.SH"] 20240930 =
      [("510300.SH", 20240111, 20240930)] :=
  ((C4_watermark_next_day rowC4 restC4 fetchEmpty ["510300.SH"] 20240930
    (by decide)).2.2.1).trans (by decide)

/-- C5: on an empty share-size table collect_incremental delegates to
    collect_full with the source-defined default start date 20200101: for
    every fetch oracle, fund list and current date, both the resulting store
    and the issued fetch requests coincide. -/
theorem C5_empty_table_full_fallback
    (fetch : String → Nat → Nat → Except String (List RawShareRow))
    (etfs : List String) (todayW : Nat) :
    ETFShareCollector.collect_incremental fetch etfs todayW [] =
      ETFShareCollector.collect_full fetch etfs 20200101 todayW [] ∧
    shareRequestsIncr [] etfs todayW = shareRequestsFull etfs 20200101 todayW :=
  ⟨rfl, rfl⟩

/-- C6: when the remote reference fetch returns zero rows,
    ETFBasicCollector.collect_full returns without any write: the reference
    table is exactly the one it started with. -/
theorem C6_empty_fetch_no_write (store : List ETFBasicRow) :
    ETFBasicCollector.collect_full [] store = Except.ok store :=
  rfl

/-- C7: every unit of work run under Database.get_session commits on normal
    return (the published store is the returned view and nothing is
    raised), rolls back on an exception (the store is unchanged and the very
    same exception is re-raised), and in both cases the session ends
    closed. -/
theorem C7_session_commit_rollback_close {σ ε : Type} (uow : σ → Except ε σ) (store : σ) :
    (Database.get_session uow store).sessionClosed = true ∧
    (∀ s, uow store = Except.ok s →
      Database.get_session uow store = ⟨s, none, true⟩) ∧
    (∀ e, uow store = Except.error e →
      (Database.get_session uow store).store = store ∧
      (Database.get_session uow store).raised = some e) := by
  refine ⟨?_, ?_, ?_⟩
  · cases h : uow store with
    | ok w => rw [get_session_ok uow store w h]
    | error e => rw [get_session_error uow store e h]
  · intro s h
    exact get_session_ok uow store s h
  · intro e h
    rw [get_session_error uow store e h]
    exact ⟨rfl, rfl⟩

/-- C7 witness: a succeeding unit of work on store 0 commits the new state
    1; a unit of work raising 42 on store 5 leaves the store at 5 and
    re-raises 42. -/
theorem C7_session_witness :
    Database.get_session uowOk 0 = ⟨1, none, true⟩ ∧
    (Database.get_session uowFail 5).store = 5 ∧
    (Database.get_session uowFail 5).raised = some 42 :=
  ⟨(C7_session_commit_rollback_close uowOk 0).2.1 1 rfl,
   ((C7_session_commit_rollback_close uowFail 5).2.2 42 rfl).1,
   ((C7_session_commit_rollback_close uowFail 5).2.2 42 rfl).2⟩

/-- C8: both client fetch operations retry a transient failure up to the
    fixed bound of 3 attempts, sleeping 1 then 2 time units between attempts
    (exponential backoff from base 1, doubling), and after exhausting the
    retries propagate the error of the last attempt to the caller; a call
    succeeding on a retry returns that success after the sleeps so far. -/
theorem C8_retry_bound_backoff_last_cause
    (apiB apiB2 : Nat → Except String (List ETFBasicRaw))
    (apiS : Nat → Except String (List RawShareRow))
    (e0 e1 e2 f0 f1 f2 g0 : String) (a : List ETFBasicRaw)
    (hb0 : apiB 0 = Except.error e0) (hb1 : apiB 1 = Except.error e1)
    (hb2 : apiB 2 = Except.error e2)
    (hs0 : apiS 0 = Except.error f0) (hs1 : apiS 1 = Except.error f1)
    (hs2 : apiS 2 = Except.error f2)
    (h20 : apiB2 0 = Except.error g0) (h21 : apiB2 1 = Except.ok a) :
    TushareClient.get_etf_basic apiB = (Except.error e2, [1, 2]) ∧
    TushareClient.get_etf_share_size apiS = (Except.error f2, [1, 2]) ∧
    TushareClient.get_etf_basic apiB2 = (Except.ok a, [1]) := by
  refine ⟨?_, ?_, ?_⟩
  · unfold TushareClient.get_etf_basic
    rw [retryCall3]
    simp [hb0, hb1, hb2]
  · unfold TushareClient.get_etf_share_size
    rw [retryCall3]
    simp [hs0, hs1, hs2]
  · unfold TushareClient.get_etf_basic
    rw [retryCall3]
    simp [h20, h21]

/-- C8 witness: an always-failing reference fetch returns the error of the
    third attempt after sleeps 1 and 2; likewise for the share-size fetch; a
    fetch failing once succeeds on the second attempt after one sleep. -/
theorem C8_retry_witness :
    TushareClient.get_etf_basic apiFailB = (Except.error "timeout-2", [1, 2]) ∧
    TushareClient.get_etf_share_size apiFailS = (Except.error "throttle-2", [1, 2]) ∧
    TushareClient.get_etf_basic apiFlaky = (Except.ok [], [1]) :=
  C8_retry_bound_backoff_last_cause apiFailB apiFlaky apiFailS
    "timeout-0" "timeout-1" "timeout-2" "throttle-0" "throttle-1" "throttle-2"
    "reset-0" [] rfl rfl rfl rfl rfl rfl rfl rfl

/-- C9 counterexample: the claim says that when the unparseable field is the
    join key (trade date), only the offending row is rejected.  At the
    concrete input — fund F fetches two rows, one with the unparseable wire
    date 20241301 and one well-formed row (F, 20240105, 5) — the claim
    predicts the well-formed row is stored; the code converts the whole
    column at once, the conversion raises, the per-fund handler skips the
    entire batch, and the well-formed row is not stored. -/
theorem C9_counterexample_whole_batch_lost :
    ETFShareCollector.collect_full fetchC9 ["F"] 20240101 20241231 [] = [] ∧
    (⟨"F", ⟨2024, 1, 5⟩, (5 : Rat)⟩ : ShareRow) ∉
      ETFShareCollector.collect_full fetchC9 ["F"] 20240101 20241231 [] := by
  refine ⟨by decide, by decide⟩

/-- C9 as amended: during reference normalization an unparseable date in a
    non-key field becomes null instead of raising; in the share-size sync an
    unparseable trade date (the join key) makes the column conversion of
    that fund raise, and the per-fund handler rejects the entire batch of
    that fund — the store is left unchanged for that fund, the loop
    continues, and no exception escapes (processFund is total), but the
    whole fund batch is lost, not only the offending row. -/
theorem C9_amended_fund_batch_rejected
    (w : Nat) (hw : parseWireDate w = none)
    (fetch : String → Nat → Nat → Except String (List RawShareRow))
    (s t : Nat) (store : List ShareRow) (c : String)
    (raws : List RawShareRow) (r : RawShareRow)
    (hf : fetch c s t = Except.ok raws) (hr : r ∈ raws)
    (hbad : parseWireDate r.trade_date = none) :
    coerceDate (some w) = none ∧
    (∃ m, convertTradeDates raws = Except.error m) ∧
    processFund fetch s t store c = store := by
  refine ⟨?_, convertTradeDates_error_of_mem r hbad raws hr,
    processFund_bad_date fetch s t store c raws r hf hr hbad⟩
  simp [coerceDate, hw]

/-- C9 witness: the unparseable wire date 20241301 coerces to null in the
    reference path; in the share path the fund F batch containing it is
    rejected whole. -/
theorem C9_amended_witness :
    coerceDate (some 20241301) = none ∧
    (∃ m, convertTradeDates [⟨"F", 20241301, (7 : Rat)⟩, ⟨"F", 20240105, (5 : Rat)⟩] =
      Except.error m) ∧
    processFund fetchC9 20240101 20241231 [] "F" = [] :=
  C9_amended_fund_batch_rejected 20241301 (by decide) fetchC9 20240101 20241231 [] "F"
    [⟨"F", 20241301, (7 : Rat)⟩, ⟨"F", 20240105, (5 : Rat)⟩]
    ⟨"F", 20241301, (7 : Rat)⟩ rfl (by decide) (by decide)

/-- C10: the incremental path of the entry point never consults the
    --start-date argument: on an empty table it falls back to collect_full
    with the fixed default 20200101 whatever start date was passed on the
    command line; the incremental result is independent of that argument on
    every store; and only full mode passes the argument through. -/
theorem C10_incremental_ignores_cli_start_date
    (sd sd2 : Nat)
    (fetch : String → Nat → Nat → Except String (List RawShareRow))
    (etfs : List String) (todayW : Nat) (store : List ShareRow) :
    mainShare Mode.incremental sd fetch etfs todayW [] =
      ETFShareCollector.collect_full fetch etfs 20200101 todayW [] ∧
    mainShare Mode.incremental sd fetch etfs todayW store =
      mainShare Mode.incremental sd2 fetch etfs todayW store ∧
    mainShare Mode.full sd fetch etfs todayW store =
      ETFShareCollector.collect_full fetch etfs sd todayW store :=
  ⟨rfl, rfl, rfl⟩
